import Mathlib

/-!
Verification of `src/gather.go` of prometheus-rancher-exporter: a shallow
embedding of the poll-reconcile-map engine (record fetcher `getJSON` /
`gatherData`, the endpoint URL computation `setEndpoint`, the reference store
`storeStackRef` / `retrieveStackRef`, and the classifier `processMetrics`),
with theorems settling the specification's claims about it.
-/

set_option autoImplicit false

namespace RancherExporter

/-- One raw API record: the inner struct of `Data` in gather.go (lines 17-30).
Field names follow the Go struct; `scale` is a Go `int`, modelled as `Int`. -/
structure Record where
  healthState : String
  name : String
  state : String
  system : Bool
  scale : Int
  hostName : String
  id : String
  stackID : String
  envID : String
  baseType : String
  type : String
  agentState : String
  deriving Repr, DecidableEq

/-- gather.go `Data` (line 16): the decoded JSON body, a wrapper around the
record slice. -/
structure Data where
  data : List Record
  deriving Repr, DecidableEq

/-! ### Go `strings` helpers, on character lists -/

/-- `strings.Contains(s, pat)`: does `pat` occur as a contiguous substring? -/
def containsSubList (s pat : List Char) : Bool :=
  match s with
  | [] => pat.isEmpty
  | _ :: cs => pat.isPrefixOf s || containsSubList cs pat

/-- `strings.Contains` on strings. -/
def containsStr (s pat : String) : Bool :=
  containsSubList s.data pat.data

/-- `strings.Replace(s, pat, rep, 1)`: replace the first occurrence of `pat`
by `rep` (an empty `pat` matches at the start, as in Go). -/
def replaceFirstList (pat rep : List Char) : List Char → List Char
  | [] => if pat.isEmpty then rep else []
  | c :: cs =>
    if pat.isPrefixOf (c :: cs) then rep ++ (c :: cs).drop pat.length
    else c :: replaceFirstList pat rep cs

/-- `strings.Replace(s, pat, rep, 1)` on strings. -/
def replaceFirstStr (s pat rep : String) : String :=
  ⟨replaceFirstList pat.data rep.data s.data⟩

/-- gather.go `setEndpoint` (lines 168-176): append the component to the base
URL and rewrite the first `"v1"` to `"v2-beta"`. -/
def setEndpoint (rancherURL component : String) : String :=
  replaceFirstStr (rancherURL ++ "/" ++ component ++ "/") "v1" "v2-beta"

/-! ### The reference store -/

/-- The process-wide `stackRef` Go map, modelled as an association list with
unique keys. A Go map's iteration order is unspecified, but `retrieveStackRef`
is insensitive to the order because keys are unique and its empty-id check does
not look at the current entry. -/
abbrev StackRef := List (String × String)

/-- gather.go `storeStackRef` (lines 179-184): the Go map assignment
`stackRef[stackID] = stackName`, i.e. insert or overwrite. -/
def storeStackRef (stackRef : StackRef) (stackID stackName : String) : StackRef :=
  if stackRef.any (fun p => decide (p.1 = stackID)) then
    stackRef.map (fun p => if p.1 = stackID then (stackID, stackName) else p)
  else
    stackRef ++ [(stackID, stackName)]

/-- gather.go `retrieveStackRef` (lines 187-199): ranges over the map; inside
the loop an empty `stackID` returns `"unknown"`, a key match returns the stored
value; after the loop (or on an empty map) returns `"unknown"`. -/
def retrieveStackRef (stackRef : StackRef) (stackID : String) : String :=
  match stackRef with
  | [] => "unknown"
  | (key, value) :: rest =>
    if stackID = "" then "unknown"
    else if stackID = key then value
    else retrieveStackRef rest stackID

/-! ### Logging events (error/warning logs; debug and info logging and the
internal instrumentation counters/timers are elided side channels) -/

/-- The error and warning log lines of gather.go, with the values they carry. -/
inductive LogEvent where
  /-- `log.Error("Error Collecting JSON from API: ", err)` (lines 140, 147). -/
  | collectErr (msg : String)
  /-- `log.Error("Error returned from API: ", resp.Status)` (line 151). -/
  | statusErr (status : String)
  /-- `log.Errorf("Error processing <kind> metrics: %s", err)` (lines 61, 74, 89). -/
  | errProcessing (kind msg : String)
  /-- `log.Errorf("Attempt Failed to set %s, %s, [agent] %s ", ...)` (line 62). -/
  | hostAttemptFailed (hostName state agentState : String)
  /-- `log.Errorf("Attempt Failed to set %s, %s, %s, %t", ...)` (line 75). -/
  | stackAttemptFailed (name state healthState systemLabel : String)
  /-- `log.Errorf("Attempt Failed to set %s, %s, %s, %s, %d", ...)` (line 90). -/
  | serviceAttemptFailed (name stackName state healthState : String) (scale : Int)
  /-- `log.Warnf("Failed to obtain stack_name for %s from the API", x.Name)` (line 85). -/
  | stackNameWarn (serviceName : String)
  deriving Repr, DecidableEq

/-! ### The fetcher: `getJSON` and `gatherData` -/

deriving instance DecidableEq for Except

/-- The part of an HTTP response that `getJSON` inspects: the status line
(`resp.Status`, e.g. `"200 OK"`) and the outcome of
`json.NewDecoder(resp.Body).Decode` into the `Data` target. -/
structure HttpResponse where
  status : String
  bodyDecode : Except String Data
  deriving Repr, DecidableEq

/-- How a call to `getJSON` ends. -/
inductive GetJSONResult where
  /-- a nil pointer was dereferenced: the process panics. -/
  | panicked
  /-- `getJSON` returned nil and the target was filled with the decoded data. -/
  | ok (target : Data)
  /-- `getJSON` returned the decoder's error. -/
  | decodeError (e : String)
  deriving Repr, DecidableEq

/-- gather.go `getJSON` (lines 123-165). `req` is the outcome of
`http.NewRequest` (`error e`: the request is nil and `e` was returned),
`doResp` the outcome of `client.Do` (`error e`: a network error; the response
is then nil). On either error the code only logs and falls through: it then
calls `req.SetBasicAuth` on the nil request (line 143), respectively reads
`resp.Status` on the nil response (line 150) — a nil dereference, modelled as
`panicked`. A status line not containing `"200"` is only logged (lines
150-152); the function's return value is the decoder's result (line 164). -/
def getJSON (req : Except String Unit) (doResp : Except String HttpResponse) :
    List LogEvent × GetJSONResult :=
  match req with
  | Except.error e => ([LogEvent.collectErr e], GetJSONResult.panicked)
  | Except.ok _ =>
    match doResp with
    | Except.error e => ([LogEvent.collectErr e], GetJSONResult.panicked)
    | Except.ok resp =>
      let statusLogs :=
        if containsStr resp.status "200" = false then [LogEvent.statusErr resp.status]
        else []
      match resp.bodyDecode with
      | Except.ok d => (statusLogs, GetJSONResult.ok d)
      | Except.error e => (statusLogs, GetJSONResult.decodeError e)

/-- How a call to `gatherData` ends. -/
inductive GatherOutcome where
  /-- `getJSON` panicked underneath. -/
  | panicked
  /-- the decoded batch is returned with a nil error. -/
  | ok (d : Data)
  /-- `getJSON` returned an error: logged, and `(nil, err)` is returned — no
  batch is produced for this endpoint. -/
  | fetchError (e : String)
  deriving Repr, DecidableEq

/-- gather.go `Exporter.gatherData` (lines 103-120): computes the URL via
`setEndpoint`, calls `getJSON`; on a `getJSON` error it logs and returns
`(nil, err)`. The transport is summarized by the `req` / `doResp` outcomes. -/
def gatherData (req : Except String Unit) (doResp : Except String HttpResponse) :
    GatherOutcome :=
  match (getJSON req doResp).2 with
  | GetJSONResult.panicked => GatherOutcome.panicked
  | GetJSONResult.ok d => GatherOutcome.ok d
  | GetJSONResult.decodeError e => GatherOutcome.fetchError e

/-! ### The classifier and mapper: `processMetrics` -/

/-- Modelled from the spec: `checkMetric`, called by `processMetrics`
(gather.go line 49) but defined outside the provided source file. The spec
calls it "a category-compatibility predicate keyed by endpoint name" and says
"a record with both [type attributes] empty is treated as category-mismatched
and skipped", so the empty category never matches; the expected category for
an endpoint is modelled as the endpoint name without its plural "s". -/
def checkMetric (endpoint dataType : String) : Bool :=
  !(dataType == "") && (endpoint == dataType ++ "s")

/-- `strconv.FormatBool`. -/
def formatBool (b : Bool) : String :=
  if b then "true" else "false"

/-- One metric-sink invocation: a call to the `Exporter`'s `setHostMetrics` /
`setStackMetrics` / `setServiceMetrics` method, with the arguments passed
(gather.go lines 60, 73, 88, 94). -/
inductive Observation where
  | host (name state agentState : String)
  | stack (name state healthState systemLabel : String)
  | service (name stackName state healthState : String) (scale : Int)
  deriving Repr, DecidableEq

/-- The state threaded through `processMetrics`: the process-wide `stackRef`
map, the sink calls made so far (in order), and the error/warning log. -/
structure PMState where
  stackRef : StackRef
  calls : List Observation
  logs : List LogEvent
  deriving Repr, DecidableEq

/-- The resolved category of a record (gather.go lines 45-48): the primary
`BaseType`, or the fallback `Type` when the primary is empty. -/
def resolvedType (x : Record) : String :=
  if x.baseType = "" then x.type else x.baseType

/-- The body of the `for` loop of `Exporter.processMetrics` (gather.go lines
37-97) for one record. The metric sink (the `Exporter`'s `setHostMetrics` /
`setStackMetrics` / `setServiceMetrics` methods, defined outside this source
file) is a parameter: `sink ob = none` means the call succeeded, `some e` that
it returned error `e`. Note line 94: after a successful `setServiceMetrics`
the call is repeated, its result unchecked. -/
def processRecord (endpoint : String) (hideSys : Bool)
    (sink : Observation → Option String) (st : PMState) (x : Record) : PMState :=
  if hideSys && x.system then st
  else if checkMetric endpoint (resolvedType x) = false then st
  else if endpoint = "hosts" then
    let s := if x.name ≠ "" then x.name else x.hostName
    let ob := Observation.host s x.state x.agentState
    let st := { st with calls := st.calls ++ [ob] }
    match sink ob with
    | some e =>
      { st with logs := st.logs ++
          [LogEvent.errProcessing "host" e,
           LogEvent.hostAttemptFailed x.hostName x.state x.agentState] }
    | none => st
  else if endpoint = "stacks" then
    let st := { st with stackRef := storeStackRef st.stackRef x.id x.name }
    let ob := Observation.stack x.name x.state x.healthState (formatBool x.system)
    let st := { st with calls := st.calls ++ [ob] }
    match sink ob with
    | some e =>
      { st with logs := st.logs ++
          [LogEvent.errProcessing "stack" e,
           LogEvent.stackAttemptFailed x.name x.state x.healthState (formatBool x.system)] }
    | none => st
  else if endpoint = "services" then
    let stackName := retrieveStackRef st.stackRef x.stackID
    let st :=
      if stackName = "unknown" then
        { st with logs := st.logs ++ [LogEvent.stackNameWarn x.name] }
      else st
    let ob := Observation.service x.name stackName x.state x.healthState x.scale
    let st := { st with calls := st.calls ++ [ob] }
    match sink ob with
    | some e =>
      { st with logs := st.logs ++
          [LogEvent.errProcessing "service" e,
           LogEvent.serviceAttemptFailed x.name stackName x.state x.healthState x.scale] }
    | none => { st with calls := st.calls ++ [ob] }
  else st

/-- The loop of `Exporter.processMetrics`: fold the loop body over the record
slice. -/
def processMetricsState (data : List Record) (endpoint : String) (hideSys : Bool)
    (sink : Observation → Option String) (st : PMState) : PMState :=
  data.foldl (processRecord endpoint hideSys sink) st

/-- gather.go `Exporter.processMetrics` (lines 34-100): runs the loop and
returns nil (line 99) — modelled as `Except.ok` of the final state; no path
returns an error. -/
def processMetrics (d : Data) (endpoint : String) (hideSys : Bool)
    (sink : Observation → Option String) (st : PMState) : Except String PMState :=
  Except.ok (processMetricsState d.data endpoint hideSys sink st)

/-! ### Helper lemmas about the string functions -/

theorem isPrefixOf_eq_true_iff (l s : List Char) :
    l.isPrefixOf s = true ↔ ∃ t, s = l ++ t := by
  induction l generalizing s with
  | nil => simp [List.isPrefixOf]
  | cons a as ih =>
    cases s with
    | nil => simp [List.isPrefixOf]
    | cons b bs =>
      simp only [List.isPrefixOf, Bool.and_eq_true, beq_iff_eq, ih, List.cons_append,
        List.cons.injEq]
      constructor
      · rintro ⟨rfl, t, rfl⟩
        exact ⟨t, rfl, rfl⟩
      · rintro ⟨t, rfl, rfl⟩
        exact ⟨rfl, t, rfl⟩

theorem replaceFirstList_cons (pat rep : List Char) (c : Char) (cs : List Char) :
    replaceFirstList pat rep (c :: cs) =
      if pat.isPrefixOf (c :: cs) then rep ++ (c :: cs).drop pat.length
      else c :: replaceFirstList pat rep cs := rfl

theorem replaceFirstList_no_occurrence (pat rep : List Char) (hp : pat ≠ [])
    (s : List Char) (h : ∀ a b, s ≠ a ++ pat ++ b) :
    replaceFirstList pat rep s = s := by
  induction s with
  | nil => simp [replaceFirstList, List.isEmpty_iff, hp]
  | cons c cs ih =>
    have hpre : ¬ pat.isPrefixOf (c :: cs) = true := by
      intro hx
      obtain ⟨t, ht⟩ := (isPrefixOf_eq_true_iff pat (c :: cs)).mp hx
      exact h [] t (by simpa using ht)
    have hcs : ∀ a b, cs ≠ a ++ pat ++ b := by
      intro a b hab
      exact h (c :: a) b (by simp [hab])
    rw [replaceFirstList_cons, if_neg hpre]
    exact congrArg (List.cons c) (ih hcs)

theorem replaceFirstList_first_occurrence (pat rep : List Char) (hp : pat ≠ [])
    (a b : List Char)
    (hmin : ∀ a' b', a ++ pat ++ b = a' ++ pat ++ b' → a.length ≤ a'.length) :
    replaceFirstList pat rep (a ++ pat ++ b) = a ++ rep ++ b := by
  induction a with
  | nil =>
    obtain ⟨p, ps, rfl⟩ : ∃ p ps, pat = p :: ps := by
      cases pat with
      | nil => exact absurd rfl hp
      | cons p ps => exact ⟨p, ps, rfl⟩
    have hpre : (p :: ps).isPrefixOf (p :: (ps ++ b)) = true :=
      (isPrefixOf_eq_true_iff _ _).mpr ⟨b, by simp⟩
    simp only [List.nil_append, List.cons_append]
    rw [replaceFirstList_cons, if_pos hpre, List.length_cons, List.drop_succ_cons,
      List.drop_left]
  | cons x a' ih =>
    have hpre : ¬ pat.isPrefixOf (x :: (a' ++ pat ++ b)) = true := by
      intro hx
      obtain ⟨t, ht⟩ := (isPrefixOf_eq_true_iff _ _).mp hx
      have hle := hmin [] t (by simpa using ht)
      simp at hle
    have hmin' : ∀ a'' b'', a' ++ pat ++ b = a'' ++ pat ++ b'' → a'.length ≤ a''.length := by
      intro a'' b'' h''
      have hle := hmin (x :: a'') b'' (by simp [h''])
      simpa using hle
    simp only [List.cons_append]
    rw [replaceFirstList_cons, if_neg hpre]
    exact congrArg (List.cons x) (ih hmin')

theorem containsSubList_eq_true_iff (s pat : List Char) :
    containsSubList s pat = true ↔ ∃ a b, s = a ++ pat ++ b := by
  induction s with
  | nil =>
    simp only [containsSubList, List.isEmpty_iff]
    constructor
    · rintro rfl
      exact ⟨[], [], rfl⟩
    · rintro ⟨a, b, hab⟩
      obtain ⟨h1, -⟩ := List.append_eq_nil.mp hab.symm
      exact (List.append_eq_nil.mp h1).2
  | cons c cs ih =>
    simp only [containsSubList, Bool.or_eq_true, ih, isPrefixOf_eq_true_iff]
    constructor
    · rintro (⟨t, ht⟩ | ⟨a, b, hab⟩)
      · exact ⟨[], t, by simpa using ht⟩
      · exact ⟨c :: a, b, by simp [hab]⟩
    · rintro ⟨a, b, hab⟩
      cases a with
      | nil => exact Or.inl ⟨b, by simpa using hab⟩
      | cons a0 as =>
        rw [List.cons_append, List.cons_append] at hab
        injection hab with h1 h2
        exact Or.inr ⟨as, b, h2⟩

/-! ### Helper lemmas about the reference store -/

theorem retrieveStackRef_cons (k v : String) (rest : StackRef) (id : String) :
    retrieveStackRef ((k, v) :: rest) id =
      if id = "" then "unknown"
      else if id = k then v
      else retrieveStackRef rest id := rfl

theorem retrieveStackRef_empty_id (m : StackRef) : retrieveStackRef m "" = "unknown" := by
  cases m with
  | nil => rfl
  | cons p rest =>
    obtain ⟨k, v⟩ := p
    rw [retrieveStackRef_cons, if_pos rfl]

theorem retrieveStackRef_absent (m : StackRef) (id : String)
    (h : ∀ p ∈ m, p.1 ≠ id) : retrieveStackRef m id = "unknown" := by
  induction m with
  | nil => rfl
  | cons p rest ih =>
    obtain ⟨k, v⟩ := p
    by_cases hid : id = ""
    · subst hid
      exact retrieveStackRef_empty_id _
    · have hik : ¬ id = k := fun e => h (k, v) (by simp) e.symm
      rw [retrieveStackRef_cons, if_neg hid, if_neg hik]
      exact ih (fun q hq => h q (by simp [hq]))

theorem retrieveStackRef_map_overwrite (m : StackRef) (id name : String) (h : id ≠ "")
    (hmem : ∃ p ∈ m, p.1 = id) :
    retrieveStackRef (m.map (fun p => if p.1 = id then (id, name) else p)) id = name := by
  induction m with
  | nil => simp at hmem
  | cons p rest ih =>
    obtain ⟨k, v⟩ := p
    by_cases hk : k = id
    · subst hk
      have hhead : (if (k, v).1 = k then (k, name) else (k, v)) = (k, name) := by simp
      rw [List.map_cons, hhead, retrieveStackRef_cons, if_neg h, if_pos rfl]
    · have hmem' : ∃ p ∈ rest, p.1 = id := by
        obtain ⟨q, hq, hq1⟩ := hmem
        rcases List.mem_cons.mp hq with rfl | hq'
        · exact absurd hq1 hk
        · exact ⟨q, hq', hq1⟩
      have hik : ¬ id = k := fun e => hk e.symm
      have hhead : (if (k, v).1 = id then (id, name) else (k, v)) = (k, v) := by simp [hk]
      rw [List.map_cons, hhead, retrieveStackRef_cons, if_neg h, if_neg hik]
      exact ih hmem'

theorem retrieveStackRef_append_absent (m l : StackRef) (id : String)
    (h : ∀ p ∈ m, p.1 ≠ id) :
    retrieveStackRef (m ++ l) id = retrieveStackRef l id := by
  induction m with
  | nil => rfl
  | cons p rest ih =>
    obtain ⟨k, v⟩ := p
    by_cases hid : id = ""
    · subst hid
      rw [retrieveStackRef_empty_id, retrieveStackRef_empty_id]
    · have hik : ¬ id = k := fun e => h (k, v) (by simp) e.symm
      rw [List.cons_append, retrieveStackRef_cons, if_neg hid, if_neg hik]
      exact ih (fun q hq => h q (by simp [hq]))

theorem retrieveStackRef_store_same (m : StackRef) (id name : String) (h : id ≠ "") :
    retrieveStackRef (storeStackRef m id name) id = name := by
  unfold storeStackRef
  by_cases hany : (m.any (fun p => decide (p.1 = id))) = true
  · rw [if_pos hany]
    apply retrieveStackRef_map_overwrite m id name h
    obtain ⟨p, hp, hp1⟩ := List.any_eq_true.mp hany
    exact ⟨p, hp, of_decide_eq_true hp1⟩
  · rw [if_neg hany]
    rw [retrieveStackRef_append_absent]
    · rw [retrieveStackRef_cons, if_neg h, if_pos rfl]
    · intro p hp hpid
      exact hany (List.any_eq_true.mpr ⟨p, hp, decide_eq_true hpid⟩)

/-! ### C3: reference-store round trip -/

/-- C3: for every store state, `storeStackRef "s1" "frontend"` followed by
`retrieveStackRef "s1"` returns `"frontend"`; `retrieveStackRef ""` and
`retrieveStackRef` of any absent id both return `"unknown"`; and overwriting
`"s1"` with `"frontend-v2"` makes `retrieveStackRef "s1"` return
`"frontend-v2"` (insert-or-overwrite semantics). -/
theorem referenceStore_roundtrip (m : StackRef) (id : String) :
    retrieveStackRef (storeStackRef m "s1" "frontend") "s1" = "frontend" ∧
    retrieveStackRef m "" = "unknown" ∧
    ((∀ p ∈ m, p.1 ≠ id) → retrieveStackRef m id = "unknown") ∧
    retrieveStackRef
      (storeStackRef (storeStackRef m "s1" "frontend") "s1" "frontend-v2") "s1"
        = "frontend-v2" := by
  refine ⟨?_, ?_, ?_, ?_⟩
  · exact retrieveStackRef_store_same m "s1" "frontend" (by decide)
  · exact retrieveStackRef_empty_id m
  · exact retrieveStackRef_absent m id
  · exact retrieveStackRef_store_same _ "s1" "frontend-v2" (by decide)

/-- Witness for C3 at a concrete store state and a concrete absent id. -/
theorem referenceStore_roundtrip_witness :
    retrieveStackRef (storeStackRef [("a", "b")] "s1" "frontend") "s1" = "frontend" ∧
    retrieveStackRef [("a", "b")] "" = "unknown" ∧
    retrieveStackRef [("a", "b")] "zzz" = "unknown" ∧
    retrieveStackRef
      (storeStackRef (storeStackRef [("a", "b")] "s1" "frontend") "s1" "frontend-v2") "s1"
        = "frontend-v2" := by
  obtain ⟨h1, h2, h3, h4⟩ := referenceStore_roundtrip [("a", "b")] "zzz"
  exact ⟨h1, h2, h3 (by decide), h4⟩

/-! ### C4: endpoint URL computation -/

/-- C4: `setEndpoint` returns `base ++ "/" ++ category ++ "/"` with only the
first occurrence of `"v1"` replaced by `"v2-beta"`: the concrete example of the
spec holds; when the concatenation splits around a leftmost occurrence of
`"v1"`, exactly that occurrence is replaced; and with no occurrence the
concatenation is returned unchanged. -/
theorem setEndpoint_rewrites_first_v1 (base cat : String) :
    setEndpoint "http://rancher.local/v1" "hosts" = "http://rancher.local/v2-beta/hosts/" ∧
    (∀ a b : List Char,
      (base ++ "/" ++ cat ++ "/").data = a ++ "v1".data ++ b →
      (∀ a' b', (base ++ "/" ++ cat ++ "/").data = a' ++ "v1".data ++ b' →
          a.length ≤ a'.length) →
      (setEndpoint base cat).data = a ++ "v2-beta".data ++ b) ∧
    ((∀ a b : List Char, (base ++ "/" ++ cat ++ "/").data ≠ a ++ "v1".data ++ b) →
      setEndpoint base cat = base ++ "/" ++ cat ++ "/") := by
  refine ⟨by decide, ?_, ?_⟩
  · intro a b hsplit hmin
    show replaceFirstList "v1".data "v2-beta".data (base ++ "/" ++ cat ++ "/").data
        = a ++ "v2-beta".data ++ b
    rw [hsplit]
    exact replaceFirstList_first_occurrence "v1".data "v2-beta".data (by decide) a b
      (fun a' b' h' => hmin a' b' (hsplit.trans h'))
  · intro hno
    apply String.ext
    show replaceFirstList "v1".data "v2-beta".data (base ++ "/" ++ cat ++ "/").data
        = (base ++ "/" ++ cat ++ "/").data
    exact replaceFirstList_no_occurrence "v1".data "v2-beta".data (by decide) _ hno

/-- Witness for C4: the rewrite at a concrete leftmost occurrence, and a
concrete base/category without any `"v1"`. -/
theorem setEndpoint_rewrites_first_v1_witness :
    (setEndpoint "v1" "h").data = [] ++ "v2-beta".data ++ "/h/".data ∧
    setEndpoint "http://x" "hosts" = "http://x" ++ "/" ++ "hosts" ++ "/" := by
  constructor
  · exact (setEndpoint_rewrites_first_v1 "v1" "h").2.1 [] "/h/".data (by decide)
      (fun a' b' _ => Nat.zero_le _)
  · exact (setEndpoint_rewrites_first_v1 "http://x" "hosts").2.2 (by
      intro a b hab
      have hc : containsSubList ("http://x" ++ "/" ++ "hosts" ++ "/").data "v1".data = true :=
        (containsSubList_eq_true_iff _ _).mpr ⟨a, b, hab⟩
      exact absurd hc (by decide))

/-! ### Helper lemmas and sample data for the classifier -/

theorem processMetricsState_cons (x : Record) (xs : List Record) (endpoint : String)
    (hideSys : Bool) (sink : Observation → Option String) (st : PMState) :
    processMetricsState (x :: xs) endpoint hideSys sink st
      = processMetricsState xs endpoint hideSys sink
          (processRecord endpoint hideSys sink st x) := rfl

/-- With the suppress-system flag set, the loop body is the identity on system
records and otherwise agrees with the flag-off loop body. -/
theorem processRecord_hideSys (endpoint : String) (sink : Observation → Option String)
    (st : PMState) (x : Record) :
    processRecord endpoint true sink st x
      = if x.system then st else processRecord endpoint false sink st x := by
  cases hx : x.system
  · simp [processRecord, hx]
  · simp [processRecord, hx]

/-- The empty classifier state. -/
def st0 : PMState := { stackRef := [], calls := [], logs := [] }

/-- A sample well-formed host record. -/
def hostRec : Record :=
  { healthState := "healthy", name := "n1", state := "active", system := false,
    scale := 1, hostName := "h1", id := "1h1", stackID := "", envID := "1a5",
    baseType := "host", type := "", agentState := "active" }

/-- A sample well-formed service record. -/
def svcRec : Record :=
  { healthState := "healthy", name := "svc1", state := "active", system := false,
    scale := 2, hostName := "", id := "1s2", stackID := "1st1", envID := "1a5",
    baseType := "service", type := "", agentState := "" }

/-- A sample service record whose primary type attribute is empty. -/
def fallbackRec : Record := { svcRec with baseType := "", type := "service" }

/-- A sample record with both type attributes empty. -/
def emptyTypeRec : Record := { svcRec with baseType := "", type := "" }

/-- A sample system-owned host record. -/
def sysRec : Record := { hostRec with system := true }

/-- A sample well-formed stack record. -/
def stackRec : Record :=
  { healthState := "healthy", name := "stk1", state := "active", system := false,
    scale := 0, hostName := "", id := "1st1", stackID := "", envID := "1a5",
    baseType := "stack", type := "", agentState := "" }

/-! ### C5: category fallback -/

/-- C5: the resolved category is the primary type attribute (`BaseType`)
whenever it is non-empty, and the fallback (`Type`) only when the primary is
empty; a record with both attributes empty is category-mismatched and the loop
body skips it without any effect. -/
theorem category_fallback (endpoint : String) (hideSys : Bool)
    (sink : Observation → Option String) (st : PMState) (x : Record) :
    (x.baseType ≠ "" → resolvedType x = x.baseType) ∧
    (x.baseType = "" → resolvedType x = x.type) ∧
    (x.baseType = "" → x.type = "" → processRecord endpoint hideSys sink st x = st) := by
  refine ⟨fun h => ?_, fun h => ?_, fun h1 h2 => ?_⟩
  · simp [resolvedType, h]
  · simp [resolvedType, h]
  · have hres : resolvedType x = "" := by simp [resolvedType, h1, h2]
    have hchk : checkMetric endpoint (resolvedType x) = false := by
      rw [hres]
      simp [checkMetric]
    unfold processRecord
    by_cases hs : (hideSys && x.system) = true
    · rw [if_pos hs]
    · rw [if_neg hs, if_pos hchk]

/-- Witness for C5 at concrete records. -/
theorem category_fallback_witness :
    resolvedType hostRec = hostRec.baseType ∧
    resolvedType fallbackRec = fallbackRec.type ∧
    processRecord "services" false (fun _ => none) st0 emptyTypeRec = st0 := by
  refine ⟨?_, ?_, ?_⟩
  · exact (category_fallback "services" false (fun _ => none) st0 hostRec).1 (by decide)
  · exact (category_fallback "services" false (fun _ => none) st0 fallbackRec).2.1 rfl
  · exact (category_fallback "services" false (fun _ => none) st0 emptyTypeRec).2.2 rfl rfl

/-! ### C8: hosts display name -/

/-- C8: for a host record processed by the loop body, the sink call is keyed by
the record's explicit name when it is non-empty, and by its host-name
otherwise. -/
theorem host_display_name (hideSys : Bool) (sink : Observation → Option String)
    (st : PMState) (x : Record)
    (hsys : (hideSys && x.system) = false)
    (hchk : checkMetric "hosts" (resolvedType x) = true) :
    (x.name ≠ "" →
      (processRecord "hosts" hideSys sink st x).calls
        = st.calls ++ [Observation.host x.name x.state x.agentState]) ∧
    (x.name = "" →
      (processRecord "hosts" hideSys sink st x).calls
        = st.calls ++ [Observation.host x.hostName x.state x.agentState]) := by
  have hcalls : (processRecord "hosts" hideSys sink st x).calls
      = st.calls ++ [Observation.host (if x.name ≠ "" then x.name else x.hostName)
          x.state x.agentState] := by
    cases hsink : sink (Observation.host (if x.name = "" then x.hostName else x.name)
        x.state x.agentState) with
    | none => simp [processRecord, hsys, hchk, hsink]
    | some e => simp [processRecord, hsys, hchk, hsink]
  constructor
  · intro hn
    rw [hcalls, if_pos hn]
  · intro hn
    rw [hcalls, if_neg (by simp [hn])]

/-- Witness for C8: a host record with a non-empty explicit name, and one
without. -/
theorem host_display_name_witness :
    (processRecord "hosts" false (fun _ => none) st0 hostRec).calls
      = st0.calls ++ [Observation.host hostRec.name hostRec.state hostRec.agentState] ∧
    (processRecord "hosts" false (fun _ => none) st0 { hostRec with name := "" }).calls
      = st0.calls ++ [Observation.host hostRec.hostName hostRec.state hostRec.agentState] := by
  constructor
  · exact (host_display_name false (fun _ => none) st0 hostRec rfl (by decide)).1 (by decide)
  · exact (host_display_name false (fun _ => none) st0 { hostRec with name := "" }
      rfl (by decide)).2 rfl

/-! ### C7: service stack-name resolution -/

/-- C7: a service record's sink call carries
`retrieveStackRef st.stackRef x.stackID` as its stack-name label; when that
resolution yields `"unknown"`, a warning naming the service is logged but the
record is still passed to the sink with `"unknown"` as the label. -/
theorem service_stack_name_resolution (hideSys : Bool) (sink : Observation → Option String)
    (st : PMState) (x : Record)
    (hsys : (hideSys && x.system) = false)
    (hchk : checkMetric "services" (resolvedType x) = true) :
    Observation.service x.name (retrieveStackRef st.stackRef x.stackID)
        x.state x.healthState x.scale ∈ (processRecord "services" hideSys sink st x).calls ∧
    (retrieveStackRef st.stackRef x.stackID = "unknown" →
      LogEvent.stackNameWarn x.name ∈ (processRecord "services" hideSys sink st x).logs) := by
  have h3 : ("services" : String) ≠ "hosts" := by decide
  have h4 : ("services" : String) ≠ "stacks" := by decide
  by_cases hunk : retrieveStackRef st.stackRef x.stackID = "unknown"
  · rw [hunk]
    cases hsink : sink (Observation.service x.name "unknown"
        x.state x.healthState x.scale) with
    | none => simp [processRecord, hsys, hchk, h3, h4, hunk, hsink]
    | some e => simp [processRecord, hsys, hchk, h3, h4, hunk, hsink]
  · cases hsink : sink (Observation.service x.name (retrieveStackRef st.stackRef x.stackID)
        x.state x.healthState x.scale) with
    | none => simp [processRecord, hsys, hchk, h3, h4, hunk, hsink]
    | some e => simp [processRecord, hsys, hchk, h3, h4, hunk, hsink]

/-- Witness for C7: a service record whose stack reference is absent from the
store resolves to `"unknown"`, is logged, and is still emitted. -/
theorem service_stack_name_resolution_witness :
    Observation.service svcRec.name (retrieveStackRef st0.stackRef svcRec.stackID)
        svcRec.state svcRec.healthState svcRec.scale
      ∈ (processRecord "services" false (fun _ => none) st0 svcRec).calls ∧
    LogEvent.stackNameWarn svcRec.name
      ∈ (processRecord "services" false (fun _ => none) st0 svcRec).logs := by
  obtain ⟨h1, h2⟩ := service_stack_name_resolution false (fun _ => none) st0 svcRec
    rfl (by decide)
  exact ⟨h1, h2 (by decide)⟩

/-! ### C10: successful service observations are emitted twice -/

/-- C10: when the first `setServiceMetrics` call for a service record succeeds,
the loop body invokes the sink a second time with identical arguments
(gather.go line 94), so the observation appears twice. -/
theorem service_double_emission (hideSys : Bool) (sink : Observation → Option String)
    (st : PMState) (x : Record)
    (hsys : (hideSys && x.system) = false)
    (hchk : checkMetric "services" (resolvedType x) = true)
    (hok : sink (Observation.service x.name (retrieveStackRef st.stackRef x.stackID)
        x.state x.healthState x.scale) = none) :
    (processRecord "services" hideSys sink st x).calls
      = st.calls ++
        [Observation.service x.name (retrieveStackRef st.stackRef x.stackID)
           x.state x.healthState x.scale,
         Observation.service x.name (retrieveStackRef st.stackRef x.stackID)
           x.state x.healthState x.scale] := by
  have h3 : ("services" : String) ≠ "hosts" := by decide
  have h4 : ("services" : String) ≠ "stacks" := by decide
  by_cases hunk : retrieveStackRef st.stackRef x.stackID = "unknown"
  · rw [hunk] at hok ⊢
    simp [processRecord, hsys, hchk, h3, h4, hunk, hok]
  · simp [processRecord, hsys, hchk, h3, h4, hunk, hok]

/-- Witness for C10 at a concrete service record with an always-successful
sink. -/
theorem service_double_emission_witness :
    (processRecord "services" false (fun _ => none) st0 svcRec).calls
      = st0.calls ++
        [Observation.service svcRec.name (retrieveStackRef st0.stackRef svcRec.stackID)
           svcRec.state svcRec.healthState svcRec.scale,
         Observation.service svcRec.name (retrieveStackRef st0.stackRef svcRec.stackID)
           svcRec.state svcRec.healthState svcRec.scale] :=
  service_double_emission false (fun _ => none) st0 svcRec rfl (by decide) rfl

/-! ### C6: system-record filtering -/

/-- Folding with the suppress-system flag equals folding the batch with the
system records filtered out. -/
theorem processMetricsState_filter (data : List Record) (endpoint : String)
    (sink : Observation → Option String) (st : PMState) :
    processMetricsState data endpoint true sink st
      = processMetricsState (data.filter (fun r => !r.system)) endpoint false sink st := by
  induction data generalizing st with
  | nil => rfl
  | cons x xs ih =>
    cases hx : x.system
    · have hkeep : (x :: xs).filter (fun r => !r.system)
          = x :: xs.filter (fun r => !r.system) := by
        simp [List.filter, hx]
      have hstep : processRecord endpoint true sink st x
          = processRecord endpoint false sink st x := by
        rw [processRecord_hideSys, hx]
        simp
      rw [hkeep, processMetricsState_cons, processMetricsState_cons, hstep]
      exact ih _
    · have hdrop : (x :: xs).filter (fun r => !r.system)
          = xs.filter (fun r => !r.system) := by
        simp [List.filter, hx]
      have hstep : processRecord endpoint true sink st x = st := by
        rw [processRecord_hideSys, hx]
        simp
      rw [hdrop, processMetricsState_cons, hstep]
      exact ih st

/-- C6: with the suppress-system flag set, `processMetrics` skips exactly the
records whose system flag is true (the loop body is the identity on them: no
sink call, no store write, no log), processes the remaining records in their
original order (the run equals a flag-off run on the system-filtered batch),
and filtering the batch a second time changes nothing. -/
theorem system_suppression_filter (d : Data) (endpoint : String)
    (sink : Observation → Option String) (st : PMState) (x : Record) :
    (x.system = true → processRecord endpoint true sink st x = st) ∧
    processMetrics d endpoint true sink st
      = processMetrics ⟨d.data.filter (fun r => !r.system)⟩ endpoint false sink st ∧
    processMetrics ⟨(d.data.filter (fun r => !r.system)).filter (fun r => !r.system)⟩
        endpoint true sink st
      = processMetrics d endpoint true sink st := by
  have hff : (d.data.filter (fun r => !r.system)).filter (fun r => !r.system)
      = d.data.filter (fun r => !r.system) := by
    rw [List.filter_filter]
    simp
  refine ⟨fun hx => ?_, ?_, ?_⟩
  · rw [processRecord_hideSys, hx]
    simp
  · unfold processMetrics
    exact congrArg Except.ok (processMetricsState_filter d.data endpoint sink st)
  · unfold processMetrics
    refine congrArg Except.ok ?_
    rw [hff, processMetricsState_filter (d.data.filter (fun r => !r.system)) endpoint sink st,
      processMetricsState_filter d.data endpoint sink st, hff]

/-- Witness for C6 at a concrete batch containing a system record. -/
theorem system_suppression_filter_witness :
    processRecord "hosts" true (fun _ => none) st0 sysRec = st0 ∧
    processMetrics ⟨[hostRec, sysRec]⟩ "hosts" true (fun _ => none) st0
      = processMetrics ⟨[hostRec, sysRec].filter (fun r => !r.system)⟩ "hosts" false
          (fun _ => none) st0 := by
  obtain ⟨h1, h2, -⟩ :=
    system_suppression_filter ⟨[hostRec, sysRec]⟩ "hosts" (fun _ => none) st0 sysRec
  exact ⟨h1 rfl, h2⟩

/-! ### C9: per-record failure isolation -/

/-- C9: `processMetrics` always returns success (`nil`); the batch decomposes
record by record, so a failing record never aborts the processing of the
records after it; and a record whose sink call fails only contributes its
attempted call plus the error-log lines carrying its identifying fields —
nothing else in the state changes. Shown for all three dispatch branches:
hosts; stacks (where the reference-store write precedes the emission, so it
persists); and services, whether or not the stack reference resolved (an
unresolved reference additionally contributes its warning line). -/
theorem per_record_failure_isolation (d : Data) (pre post : List Record) (x : Record)
    (endpoint : String) (hideSys : Bool) (sink : Observation → Option String)
    (st : PMState) (e : String) :
    (∃ st', processMetrics d endpoint hideSys sink st = Except.ok st') ∧
    (processMetricsState (pre ++ x :: post) endpoint hideSys sink st
      = processMetricsState post endpoint hideSys sink
          (processRecord endpoint hideSys sink
            (processMetricsState pre endpoint hideSys sink st) x)) ∧
    ((hideSys && x.system) = false → checkMetric "hosts" (resolvedType x) = true →
      sink (Observation.host (if x.name = "" then x.hostName else x.name)
        x.state x.agentState) = some e →
      processRecord "hosts" hideSys sink st x
        = { st with
            calls := st.calls ++ [Observation.host
              (if x.name = "" then x.hostName else x.name) x.state x.agentState],
            logs := st.logs ++ [LogEvent.errProcessing "host" e,
              LogEvent.hostAttemptFailed x.hostName x.state x.agentState] }) ∧
    ((hideSys && x.system) = false → checkMetric "stacks" (resolvedType x) = true →
      sink (Observation.stack x.name x.state x.healthState (formatBool x.system))
        = some e →
      processRecord "stacks" hideSys sink st x
        = { st with
            stackRef := storeStackRef st.stackRef x.id x.name,
            calls := st.calls ++ [Observation.stack x.name x.state x.healthState
              (formatBool x.system)],
            logs := st.logs ++ [LogEvent.errProcessing "stack" e,
              LogEvent.stackAttemptFailed x.name x.state x.healthState
                (formatBool x.system)] }) ∧
    ((hideSys && x.system) = false → checkMetric "services" (resolvedType x) = true →
      sink (Observation.service x.name (retrieveStackRef st.stackRef x.stackID)
        x.state x.healthState x.scale) = some e →
      processRecord "services" hideSys sink st x
        = { st with
            calls := st.calls ++ [Observation.service x.name
              (retrieveStackRef st.stackRef x.stackID) x.state x.healthState x.scale],
            logs := st.logs
              ++ (if retrieveStackRef st.stackRef x.stackID = "unknown"
                  then [LogEvent.stackNameWarn x.name] else [])
              ++ [LogEvent.errProcessing "service" e,
                LogEvent.serviceAttemptFailed x.name
                  (retrieveStackRef st.stackRef x.stackID)
                  x.state x.healthState x.scale] }) := by
  have h3 : ("services" : String) ≠ "hosts" := by decide
  have h4 : ("services" : String) ≠ "stacks" := by decide
  have h5 : ("stacks" : String) ≠ "hosts" := by decide
  refine ⟨⟨_, rfl⟩, ?_, fun hsys hchk hsink => ?_, fun hsys hchk hsink => ?_,
    fun hsys hchk hsink => ?_⟩
  · simp [processMetricsState, List.foldl_append]
  · simp [processRecord, hsys, hchk, hsink]
  · simp [processRecord, hsys, hchk, h5, hsink]
  · by_cases hunk : retrieveStackRef st.stackRef x.stackID = "unknown"
    · rw [hunk] at hsink ⊢
      simp [processRecord, hsys, hchk, h3, h4, hunk, hsink]
    · simp [processRecord, hsys, hchk, h3, h4, hunk, hsink]

/-- Witness for C9: a failing sink on a concrete host record, on a concrete
stack record, and on a concrete service record whose stack reference does not
resolve. -/
theorem per_record_failure_isolation_witness :
    processRecord "hosts" false (fun _ => some "boom") st0 hostRec
      = { st0 with
          calls := st0.calls ++ [Observation.host
            (if hostRec.name = "" then hostRec.hostName else hostRec.name)
            hostRec.state hostRec.agentState],
          logs := st0.logs ++ [LogEvent.errProcessing "host" "boom",
            LogEvent.hostAttemptFailed hostRec.hostName hostRec.state hostRec.agentState] } ∧
    processRecord "stacks" false (fun _ => some "boom") st0 stackRec
      = { st0 with
          stackRef := storeStackRef st0.stackRef stackRec.id stackRec.name,
          calls := st0.calls ++ [Observation.stack stackRec.name stackRec.state
            stackRec.healthState (formatBool stackRec.system)],
          logs := st0.logs ++ [LogEvent.errProcessing "stack" "boom",
            LogEvent.stackAttemptFailed stackRec.name stackRec.state
              stackRec.healthState (formatBool stackRec.system)] } ∧
    processRecord "services" false (fun _ => some "boom") st0 svcRec
      = { st0 with
          calls := st0.calls ++ [Observation.service svcRec.name
            (retrieveStackRef st0.stackRef svcRec.stackID)
            svcRec.state svcRec.healthState svcRec.scale],
          logs := st0.logs
            ++ (if retrieveStackRef st0.stackRef svcRec.stackID = "unknown"
                then [LogEvent.stackNameWarn svcRec.name] else [])
            ++ [LogEvent.errProcessing "service" "boom",
              LogEvent.serviceAttemptFailed svcRec.name
                (retrieveStackRef st0.stackRef svcRec.stackID)
                svcRec.state svcRec.healthState svcRec.scale] } := by
  refine ⟨?_, ?_, ?_⟩
  · exact (per_record_failure_isolation ⟨[]⟩ [] [] hostRec "hosts" false
      (fun _ => some "boom") st0 "boom").2.2.1 rfl (by decide) rfl
  · exact (per_record_failure_isolation ⟨[]⟩ [] [] stackRec "stacks" false
      (fun _ => some "boom") st0 "boom").2.2.2.1 rfl (by decide) rfl
  · exact (per_record_failure_isolation ⟨[]⟩ [] [] svcRec "services" false
      (fun _ => some "boom") st0 "boom").2.2.2.2 rfl (by decide) rfl

/-! ### C1: behavior of `getJSON` on a non-2xx status -/

/-- Counterexample to C1 as stated: a fetch whose response status is
`"404 Not Found"` (non-2xx) but whose body decodes successfully makes
`getJSON` return success with a decoded batch — `gatherData` then hands the
batch on — instead of failing with a fetch error. The non-2xx status is only
logged. -/
theorem getJSON_non2xx_counterexample :
    getJSON (Except.ok ()) (Except.ok ⟨"404 Not Found", Except.ok ⟨[]⟩⟩)
      = ([LogEvent.statusErr "404 Not Found"], GetJSONResult.ok ⟨[]⟩) ∧
    gatherData (Except.ok ()) (Except.ok ⟨"404 Not Found", Except.ok ⟨[]⟩⟩)
      = GatherOutcome.ok ⟨[]⟩ := by
  constructor
  · decide
  · decide

/-- C1 (amended): on a response whose status line does not contain `"200"`,
`getJSON` logs the status error but does not fail on the status alone: it
returns a failure exactly when the JSON decode of the body fails (in which
case that endpoint's cycle step is abandoned by `gatherData`), and returns
success with the decoded batch when the body decodes. -/
theorem getJSON_non2xx_logs_and_fails_only_on_decode (r : HttpResponse)
    (h : containsStr r.status "200" = false) :
    (getJSON (Except.ok ()) (Except.ok r)).1 = [LogEvent.statusErr r.status] ∧
    ((∃ e, r.bodyDecode = Except.error e ∧
        (getJSON (Except.ok ()) (Except.ok r)).2 = GetJSONResult.decodeError e ∧
        gatherData (Except.ok ()) (Except.ok r) = GatherOutcome.fetchError e) ∨
     (∃ d, r.bodyDecode = Except.ok d ∧
        (getJSON (Except.ok ()) (Except.ok r)).2 = GetJSONResult.ok d ∧
        gatherData (Except.ok ()) (Except.ok r) = GatherOutcome.ok d)) := by
  cases hbd : r.bodyDecode with
  | ok d =>
    exact ⟨by simp [getJSON, hbd, h],
      Or.inr ⟨d, rfl, by simp [getJSON, hbd, h], by simp [gatherData, getJSON, hbd, h]⟩⟩
  | error e =>
    exact ⟨by simp [getJSON, hbd, h],
      Or.inl ⟨e, rfl, by simp [getJSON, hbd, h], by simp [gatherData, getJSON, hbd, h]⟩⟩

/-- Witness for C1 (amended) at a concrete non-2xx response with an
undecodable body. -/
theorem getJSON_non2xx_logs_and_fails_only_on_decode_witness :
    containsStr "404 Not Found" "200" = false ∧
    ((getJSON (Except.ok ())
        (Except.ok ⟨"404 Not Found", Except.error "invalid character"⟩)).1
      = [LogEvent.statusErr "404 Not Found"] ∧
    ((∃ e, (Except.error "invalid character" : Except String Data) = Except.error e ∧
        (getJSON (Except.ok ())
          (Except.ok ⟨"404 Not Found", Except.error "invalid character"⟩)).2
          = GetJSONResult.decodeError e ∧
        gatherData (Except.ok ())
          (Except.ok ⟨"404 Not Found", Except.error "invalid character"⟩)
          = GatherOutcome.fetchError e) ∨
     (∃ d, (Except.error "invalid character" : Except String Data) = Except.ok d ∧
        (getJSON (Except.ok ())
          (Except.ok ⟨"404 Not Found", Except.error "invalid character"⟩)).2
          = GetJSONResult.ok d ∧
        gatherData (Except.ok ())
          (Except.ok ⟨"404 Not Found", Except.error "invalid character"⟩)
          = GatherOutcome.ok d))) :=
  ⟨by decide, getJSON_non2xx_logs_and_fails_only_on_decode
    ⟨"404 Not Found", Except.error "invalid character"⟩ (by decide)⟩

/-! ### C2: behavior of `getJSON` on a network error -/

/-- C2 (code bug, evaluated at the failing input): when `client.Do` returns an
error, `getJSON` logs it but does not return; it then reads `resp.Status` on
the nil response — a nil-pointer dereference that panics and crashes the
process instead of abandoning only that endpoint's step. -/
theorem getJSON_network_error_panics :
    getJSON (Except.ok ()) (Except.error "connection refused")
      = ([LogEvent.collectErr "connection refused"], GetJSONResult.panicked) := rfl

end RancherExporter
